import Mathlib

/-!
Verification of the database connectivity and migration subsystem of the
go-boilerplate repository: connection-string construction (`database.New`
and `database.Migrate`), the `multiTracer` query-instrumentation aggregator,
pool construction with its bounded health probe, and the versioned schema
migration runner.

Go strings are modelled as Lean `String`s; the byte-wise operations of the
source (`url.QueryEscape`) act here on characters, which coincides with the
source on ASCII input.
-/

namespace GoBoilerplate

/-- Connection Descriptor: the `database` section of the configuration
(`config.DatabaseConfig` in internal/config). The pool-sizing fields
(max open, max idle, lifetimes) are omitted: neither `New` nor `Migrate`
reads them when building the connection string. -/
structure DatabaseConfig where
  host : String
  port : Int
  user : String
  password : String
  name : String
  sslMode : String
deriving DecidableEq, Repr

/-- Go `net.JoinHostPort`: brackets the host when it contains a colon
(IPv6 literal), otherwise `host:port`. -/
def joinHostPort (host port : String) : String :=
  if host.data.contains ':' then "[" ++ host ++ "]:" ++ port
  else host ++ ":" ++ port

/-- The unreserved characters of Go `net/url.shouldEscape`: ASCII
alphanumerics and `-`, `_`, `.`, `~` are never escaped. -/
def isUnreservedChar (c : Char) : Bool :=
  (('a' ≤ c) && (c ≤ 'z')) || (('A' ≤ c) && (c ≤ 'Z')) || (('0' ≤ c) && (c ≤ '9'))
    || c == '-' || c == '_' || c == '.' || c == '~'

/-- Go `net/url`'s `upperhex` table lookup. The source only ever indexes it
with the two hex nibbles of a byte, both `< 16`; the `% 16` makes that
totality explicit in the model without changing any in-range value. -/
def upperHexDigit (n : Nat) : Char :=
  "0123456789ABCDEF".toList.getD (n % 16) '0'

/-- One step of Go `net/url.escape` in query-component mode: a space becomes
`+`, an unreserved character passes through, everything else becomes
`%` followed by two uppercase hex digits of the byte. -/
def escapeChar (c : Char) : List Char :=
  if c == ' ' then ['+']
  else if isUnreservedChar c then [c]
  else ['%', upperHexDigit (c.toNat / 16), upperHexDigit (c.toNat % 16)]

/-- Go `url.QueryEscape`, applied by both `New` and `Migrate` to the
password before embedding it in the connection string. -/
def queryEscape (s : String) : String :=
  String.mk (s.data.map escapeChar).flatten

/-- The connection string built by `database.New` (database.go). The
`fmt.Sprintf` template is `postgres://%s:%s@%s/dbname?sslmode=%s` with
exactly four arguments (user, encoded password, host:port, ssl mode):
the path segment is the literal text `dbname`. -/
def newDSN (cfg : DatabaseConfig) : String :=
  "postgres://" ++ cfg.user ++ ":" ++ queryEscape cfg.password ++ "@"
    ++ joinHostPort cfg.host (toString cfg.port) ++ "/dbname?sslmode=" ++ cfg.sslMode

/-- The connection string built by `database.Migrate` (the migration file):
template `postgres://%s:%s@%s/%s?sslmode=%s`, whose path segment is the
configured database name. -/
def migrateDSN (cfg : DatabaseConfig) : String :=
  "postgres://" ++ cfg.user ++ ":" ++ queryEscape cfg.password ++ "@"
    ++ joinHostPort cfg.host (toString cfg.port) ++ "/" ++ cfg.name ++ "?sslmode="
    ++ cfg.sslMode

/-- Splitting a character list at every occurrence of a separator character
(the list-level analogue of splitting a string on a one-character
separator). -/
def splitOnChar (sep : Char) : List Char → List (List Char)
  | [] => [[]]
  | c :: cs =>
    match splitOnChar sep cs, c == sep with
    | r, true => [] :: r
    | [], false => [[c]]
    | g :: gs, false => (c :: g) :: gs

/-- The database-name component a URL parser recovers from a DSN of shape
`scheme://authority/name?query`: the text between the slash that ends the
authority and the query separator. -/
def dsnDatabaseName (dsn : String) : String :=
  String.mk ((splitOnChar '?' ((splitOnChar '/' dsn.data).getD 3 [])).getD 0 [])

/-- Characters that can occur in `QueryEscape` output: unreserved characters,
the space replacement `+`, and the escape marker `%` (hex digits are
alphanumeric, hence unreserved). URL metacharacters such as `@ : / ? & =`
are not in this set. -/
def isSafeChar (c : Char) : Bool :=
  isUnreservedChar c || c == '+' || c == '%'

theorem isSafeChar_upperHexDigit (n : Nat) : isSafeChar (upperHexDigit n) = true := by
  have h16 : ∀ m, m < 16 → isSafeChar (upperHexDigit m) = true := by decide
  have hmod : n % 16 < 16 := Nat.mod_lt _ (by decide)
  have : upperHexDigit n = upperHexDigit (n % 16) := by
    simp [upperHexDigit, Nat.mod_mod_of_dvd]
  rw [this]
  exact h16 _ hmod

theorem escapeChar_all_safe (c : Char) : (escapeChar c).all isSafeChar = true := by
  by_cases hsp : c == ' '
  · simp [escapeChar, hsp]
    decide
  · by_cases hur : isUnreservedChar c
    · simp [escapeChar, hsp, hur, isSafeChar]
    · simp [escapeChar, hsp, hur, isSafeChar_upperHexDigit]
      decide

theorem escapeList_all_safe (cs : List Char) :
    ((cs.map escapeChar).flatten).all isSafeChar = true := by
  induction cs with
  | nil => rfl
  | cons c cs ih =>
    simp only [List.map_cons, List.flatten_cons, List.all_append]
    rw [escapeChar_all_safe, ih]
    rfl

theorem queryEscape_all_safe (s : String) :
    (queryEscape s).data.all isSafeChar = true :=
  escapeList_all_safe s.data

/-- A concrete Connection Descriptor whose database name differs from the
literal text `dbname`. -/
def exampleCfg : DatabaseConfig :=
  ⟨"localhost", 5432, "postgres", "pw", "appdb", "disable"⟩

/-- C2: the round-trip claim fails on `New`. For the descriptor
`exampleCfg` (database name `appdb`), the connection string `New` builds
carries the literal path segment `dbname`, so parsing it back yields the
database name `dbname`, not `appdb`; the string `Migrate` builds does
round-trip the name. -/
theorem new_dsn_database_name_not_roundtripped :
    exampleCfg.name = "appdb" ∧
    newDSN exampleCfg = "postgres://postgres:pw@localhost:5432/dbname?sslmode=disable" ∧
    dsnDatabaseName (newDSN exampleCfg) = "dbname" ∧
    dsnDatabaseName (migrateDSN exampleCfg) = "appdb" := by
  refine ⟨rfl, by decide, by decide, by decide⟩

/-- C8: every connection string built by `New` or `Migrate` embeds the
password only through `QueryEscape`, and `QueryEscape` output consists
solely of unreserved characters, `+`, and `%` — none of the URL
metacharacters `@ : / ? & =` can appear unescaped in the embedded
password, whatever the password. -/
theorem password_always_percent_encoded (cfg : DatabaseConfig) :
    (queryEscape cfg.password).data.all isSafeChar = true ∧
    isSafeChar '@' = false ∧ isSafeChar ':' = false ∧ isSafeChar '/' = false ∧
    isSafeChar '?' = false ∧ isSafeChar '&' = false ∧ isSafeChar '=' = false ∧
    newDSN cfg = "postgres://" ++ cfg.user ++ ":" ++ queryEscape cfg.password ++ "@"
      ++ joinHostPort cfg.host (toString cfg.port) ++ "/dbname?sslmode=" ++ cfg.sslMode ∧
    migrateDSN cfg = "postgres://" ++ cfg.user ++ ":" ++ queryEscape cfg.password ++ "@"
      ++ joinHostPort cfg.host (toString cfg.port) ++ "/" ++ cfg.name ++ "?sslmode="
      ++ cfg.sslMode :=
  ⟨queryEscape_all_safe cfg.password, rfl, rfl, rfl, rfl, rfl, rfl, rfl, rfl⟩

/-! ### The multiTracer aggregator (database.go)

An element of `multiTracer.tracers` is an opaque Go value (`any`). The loop
bodies of `TraceQueryStart`/`TraceQueryEnd` run a type assertion against the
start (resp. end) capability interface; `some f` models a successful
assertion and `none` a failed one. -/

/-- One registered observer. The end callback returns `E`, the record of the
side effect it performs (in Go the method returns nothing; its observable
behaviour is the effect). -/
structure TracerVal (Ctx Conn StartD EndD E : Type) where
  traceQueryStart? : Option (Ctx → Conn → StartD → Ctx)
  traceQueryEnd? : Option (Ctx → Conn → EndD → E)

/-- The `multiTracer` struct: an ordered list of observers, fixed at
construction. -/
structure MultiTracer (Ctx Conn StartD EndD E : Type) where
  tracers : List (TracerVal Ctx Conn StartD EndD E)

/-- `multiTracer.TraceQueryStart`: loop over `mt.tracers`, reassigning `ctx`
to the callback result whenever the start type assertion succeeds, and
return the final `ctx`. (Semantics of runs in which no callback panics;
panic propagation is modelled separately below.) -/
def MultiTracer.TraceQueryStart {Ctx Conn StartD EndD E : Type}
    (mt : MultiTracer Ctx Conn StartD EndD E) (ctx : Ctx) (conn : Conn)
    (data : StartD) : Ctx :=
  mt.tracers.foldl
    (fun c t =>
      match t.traceQueryStart? with
      | some f => f c conn data
      | none => c) ctx

/-- `multiTracer.TraceQueryEnd`: loop over `mt.tracers`, invoking the end
callback of every observer whose end type assertion succeeds, all with the
same `ctx`; the result is the list of performed effects in loop order. -/
def MultiTracer.TraceQueryEnd {Ctx Conn StartD EndD E : Type}
    (mt : MultiTracer Ctx Conn StartD EndD E) (ctx : Ctx) (conn : Conn)
    (data : EndD) : List E :=
  mt.tracers.foldl
    (fun acc t =>
      match t.traceQueryEnd? with
      | some f => acc ++ [f ctx conn data]
      | none => acc) []

/-- The start-capable callbacks of an observer list, in registration order. -/
def startCapable {Ctx Conn StartD EndD E : Type}
    (ts : List (TracerVal Ctx Conn StartD EndD E)) :
    List (Ctx → Conn → StartD → Ctx) :=
  ts.filterMap (fun t => t.traceQueryStart?)

/-- The end-capable callbacks of an observer list, in registration order. -/
def endCapable {Ctx Conn StartD EndD E : Type}
    (ts : List (TracerVal Ctx Conn StartD EndD E)) :
    List (Ctx → Conn → EndD → E) :=
  ts.filterMap (fun t => t.traceQueryEnd?)

theorem traceQueryStart_foldl_startCapable {Ctx Conn StartD EndD E : Type}
    (ts : List (TracerVal Ctx Conn StartD EndD E)) (ctx : Ctx) (conn : Conn)
    (data : StartD) :
    ts.foldl
      (fun c t =>
        match t.traceQueryStart? with
        | some f => f c conn data
        | none => c) ctx
      = (startCapable ts).foldl (fun c f => f c conn data) ctx := by
  induction ts generalizing ctx with
  | nil => rfl
  | cons t ts ih =>
    cases h : t.traceQueryStart? with
    | none => simp [List.foldl_cons, h, startCapable, List.filterMap_cons, ih]
    | some f => simp [List.foldl_cons, h, startCapable, List.filterMap_cons, ih]

theorem traceQueryEnd_foldl_endCapable {Ctx Conn StartD EndD E : Type}
    (ts : List (TracerVal Ctx Conn StartD EndD E)) (acc : List E) (ctx : Ctx)
    (conn : Conn) (data : EndD) :
    ts.foldl
      (fun a t =>
        match t.traceQueryEnd? with
        | some f => a ++ [f ctx conn data]
        | none => a) acc
      = acc ++ (endCapable ts).map (fun f => f ctx conn data) := by
  induction ts generalizing acc with
  | nil => simp [endCapable]
  | cons t ts ih =>
    cases h : t.traceQueryEnd? with
    | none => simp [List.foldl_cons, h, endCapable, List.filterMap_cons, ih]
    | some f => simp [List.foldl_cons, h, endCapable, List.filterMap_cons, ih]

/-- C6: on query-start the aggregator runs exactly the start-capable
callbacks, each once, in registration order, threading each returned
context into the next invocation (the first gets the incoming context)
and returning the context produced by the last one — the loop equals a
left fold of the start-capable callback list. -/
theorem traceQueryStart_runs_start_capable_in_order {Ctx Conn StartD EndD E : Type}
    (mt : MultiTracer Ctx Conn StartD EndD E) (ctx : Ctx) (conn : Conn)
    (data : StartD) :
    mt.TraceQueryStart ctx conn data
      = (startCapable mt.tracers).foldl (fun c f => f c conn data) ctx :=
  traceQueryStart_foldl_startCapable mt.tracers ctx conn data

/-- C7: on query-end the aggregator invokes exactly the end-capable
callbacks, each once, in registration order, all with the same final
context (effect list = map over the end-capable list); and an observer
implementing neither capability is skipped: removing it from the
registration list leaves the query-end behaviour unchanged. -/
theorem traceQueryEnd_runs_end_capable_in_order {Ctx Conn StartD EndD E : Type}
    (mt : MultiTracer Ctx Conn StartD EndD E) (ctx : Ctx) (conn : Conn)
    (data : EndD) :
    mt.TraceQueryEnd ctx conn data
      = (endCapable mt.tracers).map (fun f => f ctx conn data) ∧
    (∀ pre post : List (TracerVal Ctx Conn StartD EndD E),
      ∀ t : TracerVal Ctx Conn StartD EndD E,
      t.traceQueryStart? = none → t.traceQueryEnd? = none →
      MultiTracer.TraceQueryEnd ⟨pre ++ t :: post⟩ ctx conn data
        = MultiTracer.TraceQueryEnd ⟨pre ++ post⟩ ctx conn data) := by
  constructor
  · exact traceQueryEnd_foldl_endCapable mt.tracers [] ctx conn data
  · intro pre post t hs he
    show (pre ++ t :: post).foldl _ [] = (pre ++ post).foldl _ []
    rw [traceQueryEnd_foldl_endCapable, traceQueryEnd_foldl_endCapable]
    simp [endCapable, List.filterMap_append, List.filterMap_cons, he]

/-- An observer implementing only the end capability, recording the context
it was handed plus one. -/
def endOnlyTracer : TracerVal Nat Unit Unit Unit Nat :=
  ⟨none, some (fun c _ _ => c + 1)⟩

/-- An observer implementing neither capability. -/
def noCapTracer : TracerVal Nat Unit Unit Unit Nat :=
  ⟨none, none⟩

theorem traceQueryEnd_runs_end_capable_in_order_witness :
    MultiTracer.TraceQueryEnd ⟨[endOnlyTracer] ++ noCapTracer :: []⟩ 5 () ()
      = MultiTracer.TraceQueryEnd ⟨[endOnlyTracer] ++ []⟩ 5 () () :=
  (traceQueryEnd_runs_end_capable_in_order ⟨[endOnlyTracer]⟩ 5 () ()).2
    [endOnlyTracer] [] noCapTracer rfl rfl

/-! ### Panic semantics of the aggregator

The loop bodies of `TraceQueryStart`/`TraceQueryEnd` contain no `recover`:
a panic raised inside an observer callback unwinds through the aggregator
method. `Except.error` models a panic escaping a call. -/

/-- A Go panic value. -/
structure GoPanic where
  msg : String
deriving DecidableEq, Repr

/-- An observer whose callbacks may panic. -/
structure PTracerVal (Ctx Conn StartD EndD E : Type) where
  traceQueryStart? : Option (Ctx → Conn → StartD → Except GoPanic Ctx)
  traceQueryEnd? : Option (Ctx → Conn → EndD → Except GoPanic E)

/-- `multiTracer.TraceQueryStart` under Go's panic semantics: the method
installs no `recover`, so a callback's panic propagates out and no later
observer runs. -/
def traceQueryStartPanics {Ctx Conn StartD EndD E : Type} :
    List (PTracerVal Ctx Conn StartD EndD E) → Ctx → Conn → StartD →
    Except GoPanic Ctx
  | [], ctx, _, _ => .ok ctx
  | t :: ts, ctx, conn, data =>
    match t.traceQueryStart? with
    | some f =>
      match f ctx conn data with
      | .ok ctx2 => traceQueryStartPanics ts ctx2 conn data
      | .error p => .error p
    | none => traceQueryStartPanics ts ctx conn data

/-- `multiTracer.TraceQueryEnd` under Go's panic semantics. -/
def traceQueryEndPanics {Ctx Conn StartD EndD E : Type} :
    List (PTracerVal Ctx Conn StartD EndD E) → Ctx → Conn → EndD →
    Except GoPanic (List E)
  | [], _, _, _ => .ok []
  | t :: ts, ctx, conn, data =>
    match t.traceQueryEnd? with
    | some f =>
      match f ctx conn data with
      | .ok e =>
        match traceQueryEndPanics ts ctx conn data with
        | .ok es => .ok (e :: es)
        | .error p => .error p
      | .error p => .error p
    | none => traceQueryEndPanics ts ctx conn data

/-- An observer that panics on every callback. -/
def panickyTracer : PTracerVal Nat Unit Unit Unit Nat :=
  ⟨some (fun _ _ _ => .error ⟨"observer panic"⟩),
   some (fun _ _ _ => .error ⟨"observer panic"⟩)⟩

/-- A well-behaved observer: start increments the context, end records 7. -/
def countingTracer : PTracerVal Nat Unit Unit Unit Nat :=
  ⟨some (fun c _ _ => .ok (c + 1)), some (fun _ _ _ => .ok 7)⟩

/-- C3 counterexample: with a panicking observer registered before a
well-behaved one, the panic propagates out of both aggregator methods
(the result is `Except.error`, not a context or an effect list) and the
second observer never runs — the claim that no exception ever escapes
`TraceQueryStart`/`TraceQueryEnd` is false on the code. -/
theorem trace_panic_escapes_cex :
    traceQueryStartPanics [panickyTracer, countingTracer] 0 () ()
      = .error ⟨"observer panic"⟩ ∧
    traceQueryEndPanics [panickyTracer, countingTracer] 0 () ()
      = .error ⟨"observer panic"⟩ :=
  ⟨rfl, rfl⟩

theorem traceQueryStartPanics_append {Ctx Conn StartD EndD E : Type}
    (l1 l2 : List (PTracerVal Ctx Conn StartD EndD E)) (ctx : Ctx)
    (conn : Conn) (data : StartD) :
    traceQueryStartPanics (l1 ++ l2) ctx conn data =
      match traceQueryStartPanics l1 ctx conn data with
      | .ok c => traceQueryStartPanics l2 c conn data
      | .error p => .error p := by
  induction l1 generalizing ctx with
  | nil => rfl
  | cons t ts ih =>
    rw [List.cons_append]
    cases h : t.traceQueryStart? with
    | none => simp [traceQueryStartPanics, h, ih ctx]
    | some f =>
      cases hc : f ctx conn data with
      | ok c => simp [traceQueryStartPanics, h, hc, ih c]
      | error p => simp [traceQueryStartPanics, h, hc]

theorem traceQueryEndPanics_append {Ctx Conn StartD EndD E : Type}
    (l1 l2 : List (PTracerVal Ctx Conn StartD EndD E)) (ctx : Ctx)
    (conn : Conn) (data : EndD) :
    traceQueryEndPanics (l1 ++ l2) ctx conn data =
      match traceQueryEndPanics l1 ctx conn data with
      | .ok es =>
        match traceQueryEndPanics l2 ctx conn data with
        | .ok es2 => .ok (es ++ es2)
        | .error p => .error p
      | .error p => .error p := by
  induction l1 with
  | nil =>
    cases h : traceQueryEndPanics l2 ctx conn data <;>
      simp [traceQueryEndPanics, h]
  | cons t ts ih =>
    rw [List.cons_append]
    cases h : t.traceQueryEnd? with
    | none => simp [traceQueryEndPanics, h, ih]
    | some f =>
      cases hc : f ctx conn data with
      | error p => simp [traceQueryEndPanics, h, hc]
      | ok e =>
        simp only [traceQueryEndPanics, h, hc]
        rw [ih]
        cases h2 : traceQueryEndPanics ts ctx conn data with
        | error p => rfl
        | ok es =>
          cases h3 : traceQueryEndPanics l2 ctx conn data <;> simp

/-- C3 amended: the aggregator performs no isolation. If an observer's
start callback panics (after the preceding observers ran cleanly), the
panic propagates out of `TraceQueryStart`, whatever observers follow; the
same holds for `TraceQueryEnd`. -/
theorem trace_panic_propagates {Ctx Conn StartD EndD E : Type}
    (pre post : List (PTracerVal Ctx Conn StartD EndD E))
    (t : PTracerVal Ctx Conn StartD EndD E) (ctx c : Ctx) (conn : Conn)
    (sd : StartD) (ed : EndD)
    (f : Ctx → Conn → StartD → Except GoPanic Ctx)
    (g : Ctx → Conn → EndD → Except GoPanic E) (es : List E) (p q : GoPanic)
    (hpre : traceQueryStartPanics pre ctx conn sd = .ok c)
    (hf : t.traceQueryStart? = some f) (hfp : f c conn sd = .error p)
    (hpreEnd : traceQueryEndPanics pre ctx conn ed = .ok es)
    (hg : t.traceQueryEnd? = some g) (hgp : g ctx conn ed = .error q) :
    traceQueryStartPanics (pre ++ t :: post) ctx conn sd = .error p ∧
    traceQueryEndPanics (pre ++ t :: post) ctx conn ed = .error q := by
  constructor
  · rw [traceQueryStartPanics_append, hpre]
    simp only [traceQueryStartPanics, hf, hfp]
  · rw [traceQueryEndPanics_append, hpreEnd]
    simp only [traceQueryEndPanics, hg, hgp]

theorem trace_panic_propagates_witness :
    traceQueryStartPanics ([countingTracer] ++ panickyTracer :: []) 0 () ()
      = .error ⟨"observer panic"⟩ ∧
    traceQueryEndPanics ([countingTracer] ++ panickyTracer :: []) 0 () ()
      = .error ⟨"observer panic"⟩ :=
  trace_panic_propagates [countingTracer] [] panickyTracer 0 1 () () ()
    (fun _ _ _ => .error ⟨"observer panic"⟩)
    (fun _ _ _ => .error ⟨"observer panic"⟩) [7]
    ⟨"observer panic"⟩ ⟨"observer panic"⟩ rfl rfl rfl rfl rfl rfl

/-! ### Migration runner (database.Migrate)

The engine behind `Migrate` — tern's `Migrator` (`m.GetCurrentVersion`,
`m.Migrate`, `m.Migrations`) from `github.com/jackc/tern/v2/migrate` — is
not among the repository sources; the definitions marked "Modelled from the
spec" below give its behaviour as spec §4.4 describes it. -/

/-- Modelled from the spec: the migration error, carrying the failed script
version with the starting version, or the version-skew pair. -/
inductive MigrationError where
  | scriptFailed (failedVersion fromVersion : Nat)
  | versionSkew (fromVersion highest : Nat)
deriving DecidableEq, Repr

/-- Outcome of a migration run: the value the version-tracking table holds
after the run, the scripts applied in application order, and the error if
one occurred. -/
structure MigrateOutcome where
  stored : Nat
  applied : List Nat
  error : Option MigrationError
deriving DecidableEq, Repr

/-- Modelled from the spec: applying the scripts `vs` in order with the
version record at `cur`. Each successful script atomically advances the
record to its version; a failing script `v` stops the run with
`MigrationError{v, fromVersion}` and leaves the record at the last
successfully completed version. The oracle `exec v` says whether script
`v` executes successfully against the store. -/
def runScripts (exec : Nat → Bool) (fromVersion : Nat) :
    List Nat → Nat → MigrateOutcome
  | [], cur => ⟨cur, [], none⟩
  | v :: rest, cur =>
    if exec v then
      let o := runScripts exec fromVersion rest v
      ⟨o.stored, v :: o.applied, o.error⟩
    else ⟨cur, [], some (.scriptFailed v fromVersion)⟩

/-- Modelled from the spec: tern's `Migrator.Migrate` over a catalogue of
scripts versioned `1..N` with the version record at `fromVersion`. It
fails with a version-skew error, applying nothing, when the record exceeds
the catalogue's highest version; otherwise it applies the scripts
`fromVersion+1 .. N` in ascending order. -/
def ternMigrate (N : Nat) (exec : Nat → Bool) (fromVersion : Nat) :
    MigrateOutcome :=
  if N < fromVersion then ⟨fromVersion, [], some (.versionSkew fromVersion N)⟩
  else
    runScripts exec fromVersion (List.range' (fromVersion + 1) (N - fromVersion))
      fromVersion

/-- The log line `Migrate` emits on success: up to date when the starting
version already equals `len(m.Migrations)`, otherwise the from/to pair. -/
inductive MigrateLog where
  | upToDate (n : Nat)
  | migrated (fromVersion toVersion : Nat)
deriving DecidableEq, Repr

/-- `database.Migrate` (the migration file) around the engine: read the
current version `from`, run the migrator, and on success log either the
up-to-date line (when `from == len(m.Migrations)`) or the migrated line.
The DSN it dials is `migrateDSN`; an errored run propagates the error and
logs nothing. -/
def Migrate (N : Nat) (exec : Nat → Bool) (storedVersion : Nat) :
    MigrateOutcome × Option MigrateLog :=
  let fromVersion := storedVersion
  let o := ternMigrate N exec fromVersion
  match o.error with
  | some _ => (o, none)
  | none =>
    (o, some (if fromVersion == N then .upToDate N else .migrated fromVersion N))

theorem runScripts_all_success (exec : Nat → Bool) (fromVersion : Nat)
    (vs : List Nat) (cur : Nat) (h : ∀ v ∈ vs, exec v = true) :
    runScripts exec fromVersion vs cur = ⟨vs.getLastD cur, vs, none⟩ := by
  induction vs generalizing cur with
  | nil => rfl
  | cons v rest ih =>
    have hv : exec v = true := h v (List.mem_cons_self v rest)
    have hrest : ∀ w ∈ rest, exec w = true :=
      fun w hw => h w (List.mem_cons_of_mem v hw)
    rw [List.getLastD_cons]
    simp only [runScripts, hv, ite_true, ih v hrest]

theorem range'_getLastD (a n d : Nat) :
    (List.range' a n).getLastD d = if n = 0 then d else a + n - 1 := by
  induction n generalizing a d with
  | zero => rfl
  | succ m ih =>
    rw [List.range'_succ, List.getLastD_cons, ih]
    by_cases hm : m = 0
    · simp [hm]
    · rw [if_neg hm, if_neg (Nat.succ_ne_zero m)]
      omega

/-- C1: starting at version `k ≤ N` with every script executing
successfully, `Migrate` applies exactly the scripts `k+1 .. N` in
ascending order, records no error, leaves the version table at `N`, and
logs the from/to pair; the immediately following run (now starting at `N`)
applies zero scripts, leaves the table at `N`, and logs up to date. -/
theorem migrate_applies_pending_then_noop (N k : Nat) (exec : Nat → Bool)
    (hk : k ≤ N) (hexec : ∀ v, exec v = true) :
    Migrate N exec k =
      (⟨N, List.range' (k + 1) (N - k), none⟩,
        some (if k == N then .upToDate N else .migrated k N)) ∧
    Migrate N exec N = (⟨N, [], none⟩, some (.upToDate N)) := by
  have hrun : ∀ m c, runScripts exec m (List.range' (m + 1) (N - m)) c =
      ⟨(List.range' (m + 1) (N - m)).getLastD c, List.range' (m + 1) (N - m), none⟩ :=
    fun m c => runScripts_all_success exec m _ c (fun v _ => hexec v)
  constructor
  · have hnot : ¬ N < k := Nat.not_lt.mpr hk
    have hlast : (List.range' (k + 1) (N - k)).getLastD k = N := by
      rw [range'_getLastD]
      by_cases h0 : N - k = 0
      · rw [if_pos h0]; omega
      · rw [if_neg h0]; omega
    have ho := hrun k k
    rw [hlast] at ho
    simp only [Migrate, ternMigrate, if_neg hnot, ho]
  · have hnot : ¬ N < N := Nat.lt_irrefl N
    have ho := hrun N N
    have h0 : N - N = 0 := Nat.sub_self N
    rw [h0] at ho
    simp only [Migrate, ternMigrate, if_neg hnot, h0, ho, List.range']
    simp [runScripts]

theorem migrate_applies_pending_then_noop_witness :
    Migrate 3 (fun _ => true) 1 = (⟨3, [2, 3], none⟩, some (.migrated 1 3)) ∧
    Migrate 3 (fun _ => true) 3 = (⟨3, [], none⟩, some (.upToDate 3)) := by
  have h := migrate_applies_pending_then_noop 3 1 (fun _ => true) (by decide)
    (fun _ => rfl)
  exact ⟨by rw [h.1]; decide, h.2⟩

/-- C4: when the run starts at version `k < N` and script `k+1` fails, the
error identifies version `k+1` (paired with the starting version `k`), no
script is recorded as applied, and the version table remains at `k`. -/
theorem migrate_script_failure_leaves_version (N k : Nat) (exec : Nat → Bool)
    (hk : k < N) (hfail : exec (k + 1) = false) :
    Migrate N exec k = (⟨k, [], some (.scriptFailed (k + 1) k)⟩, none) := by
  have hnot : ¬ N < k := Nat.not_lt.mpr (Nat.le_of_lt hk)
  have hsub : N - k = (N - k - 1) + 1 := by omega
  have hrun : runScripts exec k (List.range' (k + 1) (N - k)) k
      = ⟨k, [], some (.scriptFailed (k + 1) k)⟩ := by
    rw [hsub, List.range'_succ]
    simp only [runScripts, hfail]
    rfl
  simp only [Migrate, ternMigrate, if_neg hnot, hrun]

theorem migrate_script_failure_leaves_version_witness :
    Migrate 2 (fun _ => false) 0 = (⟨0, [], some (.scriptFailed 1 0)⟩, none) :=
  migrate_script_failure_leaves_version 2 0 (fun _ => false) (by decide) rfl

/-- C5: when the version table holds `v > N`, `Migrate` fails with the
version-skew error, applies zero scripts, and leaves the stored version
unchanged at `v`. -/
theorem migrate_version_skew (N v : Nat) (exec : Nat → Bool) (hv : N < v) :
    Migrate N exec v = (⟨v, [], some (.versionSkew v N)⟩, none) := by
  simp [Migrate, ternMigrate, hv]

theorem migrate_version_skew_witness :
    Migrate 2 (fun _ => true) 5 = (⟨5, [], some (.versionSkew 5 2)⟩, none) :=
  migrate_version_skew 2 5 (fun _ => true) (by decide)

/-! ### Pool construction (database.New) -/

/-- The tracer values `New` can leave on `pgxPoolConfig.ConnConfig.Tracer`:
the New Relic tracer (`nrpgx5.NewTracer()`), the console trace logger
(`tracelog.TraceLog` over the pgx zerolog adapter), or the `multiTracer`
aggregator over a list of them. -/
inductive Tracer where
  | nrpgx5
  | traceLog
  | multi (tracers : List Tracer)

/-- A Go `error` value, reduced to its message. -/
structure GoError where
  msg : String
deriving DecidableEq, Repr

/-- The pool configuration `pgxpool.ParseConfig` yields and `New` then
mutates: the connection string and the attached tracer. -/
structure PgxPoolConfig where
  connString : String
  tracer : Option Tracer

/-- The tracer-selection steps of `New`: starting from the tracer the
parsed config carries (`ParseConfig` leaves it nil), install the New Relic
tracer when the logger service holds an active New Relic application
(`loggerService != nil && loggerService.GetApplication() != nil`); then,
when the environment is "local", either chain the already-installed tracer
with the console trace logger inside a `multiTracer`, or install the
console trace logger alone. -/
def selectTracer (nrActive : Bool) (env : String) (t0 : Option Tracer) :
    Option Tracer :=
  let t1 := if nrActive then some Tracer.nrpgx5 else t0
  if env == "local" then
    match t1 with
    | some t => some (.multi [t, .traceLog])
    | none => some .traceLog
  else t1

/-- The external pgx calls `New` makes, supplied as oracles: parsing the
DSN, establishing the pool from a config, and pinging the pool under a
timeout given in seconds. -/
structure PgxEnv (P : Type) where
  parseConfig : String → Except GoError PgxPoolConfig
  newWithConfig : PgxPoolConfig → Except GoError P
  ping : P → Nat → Except GoError Unit

/-- `DatabasePingTimeout` (database.go): the timeout in seconds for the
post-creation health probe. -/
def DatabasePingTimeout : Nat := 10

/-- The `Database` struct `New` returns (the log handle is omitted). -/
structure Database (P : Type) where
  Pool : P

/-- `database.New`: build the DSN, parse it into a pool config, attach the
selected tracer, establish the pool, then ping it under the fixed
`DatabasePingTimeout`; each failing step returns its wrapped error, and a
failed ping means no `Database` value is returned. -/
def New {P : Type} (eff : PgxEnv P) (cfg : DatabaseConfig) (nrActive : Bool)
    (env : String) : Except GoError (Database P) :=
  let dns := newDSN cfg
  match eff.parseConfig dns with
  | .error e => .error ⟨"failed to parse pgx pool config: " ++ e.msg⟩
  | .ok pgxPoolConfig =>
    let cfg2 :=
      { pgxPoolConfig with
        tracer := selectTracer nrActive env pgxPoolConfig.tracer }
    match eff.newWithConfig cfg2 with
    | .error e => .error ⟨"failed to establish database connection " ++ e.msg⟩
    | .ok pool =>
      let database : Database P := ⟨pool⟩
      match eff.ping pool DatabasePingTimeout with
      | .error e => .error ⟨"failed to ping database: " ++ e.msg⟩
      | .ok _ => .ok database

/-- C9: the health probe runs immediately after pool creation under the
fixed ten-second budget (`DatabasePingTimeout = 10`), and when the probe
fails `New` returns the wrapped ping error — in particular no `Database`
value reaches the caller. -/
theorem new_ping_failure_returns_no_pool {P : Type} (eff : PgxEnv P)
    (cfg : DatabaseConfig) (nrActive : Bool) (env : String)
    (pcfg : PgxPoolConfig) (pool : P) (e : GoError)
    (hparse : eff.parseConfig (newDSN cfg) = .ok pcfg)
    (hpool : eff.newWithConfig
      { pcfg with tracer := selectTracer nrActive env pcfg.tracer } = .ok pool)
    (hping : eff.ping pool DatabasePingTimeout = .error e) :
    DatabasePingTimeout = 10 ∧
    New eff cfg nrActive env = .error ⟨"failed to ping database: " ++ e.msg⟩ := by
  refine ⟨rfl, ?_⟩
  simp only [New, hparse, hpool, hping]

/-- An environment whose pool always fails its ping (unreachable host). -/
def failingPingEnv : PgxEnv Unit :=
  ⟨fun s => .ok ⟨s, none⟩, fun _ => .ok (),
    fun _ _ => .error ⟨"unreachable host"⟩⟩

theorem new_ping_failure_returns_no_pool_witness :
    DatabasePingTimeout = 10 ∧
    New failingPingEnv exampleCfg false "production"
      = .error ⟨"failed to ping database: " ++ "unreachable host"⟩ :=
  new_ping_failure_returns_no_pool failingPingEnv exampleCfg false "production"
    ⟨newDSN exampleCfg, none⟩ () ⟨"unreachable host"⟩ rfl rfl rfl

/-- C10: starting from the tracer-less parsed config, the tracer `New`
attaches is exactly determined by the two inputs: active New Relic
application and environment "local" give the aggregator over the New Relic
tracer followed by the console trace logger; only the application gives
the New Relic tracer alone; only "local" gives the console trace logger
alone; otherwise no tracer is attached. -/
theorem tracer_attachment_cases (nrActive : Bool) (env : String) :
    selectTracer nrActive env none =
      if nrActive && (env == "local") then
        some (.multi [.nrpgx5, .traceLog])
      else if nrActive then some .nrpgx5
      else if env == "local" then some .traceLog
      else none := by
  cases nrActive <;> cases h : env == "local" <;> simp [selectTracer, h]

end GoBoilerplate
